import Mathlib

/-!
Verification of the kinematics-and-posture-transform core of the A1 quadruped
controller (`simulation/liba1.py`).

Modelling conventions:
* Python floats are modelled by real numbers `ℝ`; `np.cos`, `np.sin`,
  `np.sqrt`, `np.arccos`, `np.arctan2` by `Real.cos`, `Real.sin`,
  `Real.sqrt`, `Real.arccos` and `arctan2` (defined below as `Complex.arg`,
  which agrees with `np.arctan2` on all real inputs).
* A float computation that produces a NaN-bearing result (square root of a
  negative number, `arccos` outside `[-1, 1]`, `0/0`) is modelled by `none`
  in an `Option`-valued translation; a fully real result is `some`.
* The pandas `DataFrame` holding one angle triple per leg is modelled by the
  structure `Posture`; column iteration order of `posture.items()` is the
  declared column order front-right, front-left, hind-right, hind-left.
-/

namespace A1

/-- The four legs, as in `A1.Leg` of the source. -/
inductive Leg
  | fr  -- front-right
  | fl  -- front-left
  | hr  -- hind-right
  | hl  -- hind-left
deriving DecidableEq

/-- Geometry constant `A1.thigh_len` (mm). -/
def thigh_len : ℝ := 200

/-- Geometry constant `A1.shank_len` (mm). -/
def shank_len : ℝ := 200

/-- Geometry constant `A1.hip_offset` (mm). -/
def hip_offset : ℝ := 80

/-- Geometry constant `A1.body_len` (mm). -/
def body_len : ℝ := 360

/-- Geometry constant `A1.body_width` (mm). -/
def body_width : ℝ := 200

/-- Model of `np.arctan2 y x`: the angle in `(-π, π]` of the point `(x, y)`.
`Complex.arg` agrees with `np.arctan2` on every real (non-NaN) input,
including the conventions `arctan2 0 0 = 0` and `arctan2 0 x = π` for
`x < 0`. -/
noncomputable def arctan2 (y x : ℝ) : ℝ := Complex.arg ⟨x, y⟩

/-- Model of `A1._forward_kinematics`: joint angles of one leg to the toe
point `(x, y, z)` relative to the hip, translated line by line from the
source. -/
noncomputable def forward_kinematics (leg : Leg) (θ0 θ1 θ2 : ℝ) : ℝ × ℝ × ℝ :=
  let l1 : ℝ := thigh_len
  let l2 : ℝ := shank_len
  let o : ℝ := hip_offset
  let h : ℝ := l1 * Real.cos θ1 + l2 * Real.cos (θ1 + θ2)
  let x : ℝ := -l1 * Real.sin θ1 - l2 * Real.sin (θ1 + θ2)
  match leg with
  | .fr | .hr => (x, o * Real.cos θ0 - h * Real.sin θ0, -o * Real.sin θ0 - h * Real.cos θ0)
  | .fl | .hl => (x, -o * Real.cos θ0 - h * Real.sin θ0, o * Real.sin θ0 - h * Real.cos θ0)

/-- Model of `A1._inverse_kinematics`: toe point to joint angles.

The source computes with floats and silently produces NaN components when a
domain constraint fails; here a NaN-bearing result is modelled as `none`.
With the concrete link lengths (`l1 = l2 = 200`) the float result of the
source contains a NaN if and only if one of the three guard conditions
below fails:
* `z² + y² - o² < 0` makes `h = np.sqrt (z² + y² - o²)` NaN;
* `cosθ2² > 1` makes `sinθ2 = -np.sqrt (1 - cosθ2²)` NaN (and with
  `l1 = l2` it simultaneously pushes the `np.arccos` argument of `θ1`
  outside `[-1, 1]`);
* `x² + h² = 0` makes the `θ1` fraction the float quotient `0 / 0`.
When every guard holds the returned angles are exactly the source's
formulas. -/
noncomputable def inverse_kinematics (leg : Leg) (x y z : ℝ) : Option (ℝ × ℝ × ℝ) :=
  let l1 : ℝ := thigh_len
  let l2 : ℝ := shank_len
  let o : ℝ := hip_offset
  let h : ℝ := Real.sqrt (z ^ 2 + y ^ 2 - o ^ 2)
  let cosθ2 : ℝ := (-l1 ^ 2 - l2 ^ 2 + x ^ 2 + h ^ 2) / (2 * l1 * l2)
  let sinθ2 : ℝ := -Real.sqrt (1 - cosθ2 ^ 2)
  let θ0 : ℝ :=
    match leg with
    | .fr | .hr => arctan2 |z| y - arctan2 h o
    | .fl | .hl => arctan2 h o - arctan2 |z| (-y)
  let θ1 : ℝ :=
    Real.arccos ((l1 ^ 2 + x ^ 2 + h ^ 2 - l2 ^ 2) / (2 * l1 * Real.sqrt (x ^ 2 + h ^ 2)))
      - arctan2 x h
  let θ2 : ℝ := arctan2 sinθ2 cosθ2
  if 0 ≤ z ^ 2 + y ^ 2 - o ^ 2 ∧ cosθ2 ^ 2 ≤ 1 ∧ 0 < x ^ 2 + h ^ 2 then
    some (θ0, θ1, θ2)
  else none

/-- A posture: one `(θ0, θ1, θ2)` triple per leg, the model of the pandas
`DataFrame` used by `postural_control` (columns in declared order). -/
structure Posture where
  fr : ℝ × ℝ × ℝ
  fl : ℝ × ℝ × ℝ
  hr : ℝ × ℝ × ℝ
  hl : ℝ × ℝ × ℝ

/-- Read one leg's column of a posture. -/
def Posture.get (p : Posture) : Leg → ℝ × ℝ × ℝ
  | .fr => p.fr
  | .fl => p.fl
  | .hr => p.hr
  | .hl => p.hl

/-- Overwrite one leg's column of a posture (the in-place write
`θ[0], θ[1], θ[2] = ...` into the method's working copy). -/
def Posture.set (p : Posture) : Leg → ℝ × ℝ × ℝ → Posture
  | .fr, t => { p with fr := t }
  | .fl, t => { p with fl := t }
  | .hr, t => { p with hr := t }
  | .hl, t => { p with hl := t }

/-- Model of the per-leg toe-point transform inside `postural_control`:
height adjustment `z -= Δz`, then the roll, pitch and yaw homogeneous
transforms, each translated entry by entry from the source matrices. -/
noncomputable def transform_toe (leg : Leg) (α β γ Δz : ℝ) (p : ℝ × ℝ × ℝ) : ℝ × ℝ × ℝ :=
  let L : ℝ := body_len / 2
  let W : ℝ := body_width / 2
  let x0 : ℝ := p.1
  let y0 : ℝ := p.2.1
  let z0 : ℝ := p.2.2 - Δz
  -- x, y, z after rolling
  let y1 : ℝ :=
    match leg with
    | .fr | .hr => Real.cos γ * y0 - Real.sin γ * z0 + (W * Real.cos γ - W)
    | .fl | .hl => Real.cos γ * y0 - Real.sin γ * z0 + (-W * Real.cos γ + W)
  let z1 : ℝ :=
    match leg with
    | .fr | .hr => Real.sin γ * y0 + Real.cos γ * z0 + W * Real.sin γ
    | .fl | .hl => Real.sin γ * y0 + Real.cos γ * z0 + -W * Real.sin γ
  -- x, z after pitching
  let x1 : ℝ :=
    match leg with
    | .fr | .fl => Real.cos β * x0 - Real.sin β * z1 + (L * Real.cos β - L)
    | .hr | .hl => Real.cos β * x0 - Real.sin β * z1 + (-L * Real.cos β + L)
  let z2 : ℝ :=
    match leg with
    | .fr | .fl => Real.sin β * x0 + Real.cos β * z1 + L * Real.sin β
    | .hr | .hl => Real.sin β * x0 + Real.cos β * z1 + -L * Real.sin β
  -- x, y, z after yawing
  let x2 : ℝ :=
    match leg with
    | .fr => Real.cos α * x1 - Real.sin α * y1 + (L * Real.cos α - W * Real.sin α - L)
    | .fl => Real.cos α * x1 - Real.sin α * y1 + (L * Real.cos α + W * Real.sin α - L)
    | .hr => Real.cos α * x1 - Real.sin α * y1 + (-L * Real.cos α - W * Real.sin α + L)
    | .hl => Real.cos α * x1 - Real.sin α * y1 + (-L * Real.cos α + W * Real.sin α + L)
  let y2 : ℝ :=
    match leg with
    | .fr => Real.sin α * x1 + Real.cos α * y1 + (L * Real.sin α + W * Real.cos α - W)
    | .fl => Real.sin α * x1 + Real.cos α * y1 + (L * Real.sin α - W * Real.cos α + W)
    | .hr => Real.sin α * x1 + Real.cos α * y1 + (-L * Real.sin α + W * Real.cos α - W)
    | .hl => Real.sin α * x1 + Real.cos α * y1 + (-L * Real.sin α - W * Real.cos α + W)
  (x2, y2, z2)

/-- One leg's candidate triple inside a `postural_control` cycle:
forward kinematics, toe transform, inverse kinematics (`none` when the
float computation would be NaN-bearing). -/
noncomputable def legCandidate (α β γ Δz : ℝ) (leg : Leg) (θ : ℝ × ℝ × ℝ) :
    Option (ℝ × ℝ × ℝ) :=
  let p := forward_kinematics leg θ.1 θ.2.1 θ.2.2
  let q := transform_toe leg α β γ Δz p
  inverse_kinematics leg q.1 q.2.1 q.2.2

/-- The strict joint-limit check of `postural_control` line 183:
`all([-0.803<θ[0]<0.803, -1.047<θ[1]<4.189, -2.697<θ[2]<-0.916])`. -/
def limits_ok (t : ℝ × ℝ × ℝ) : Prop :=
  -0.803 < t.1 ∧ t.1 < 0.803 ∧ -1.047 < t.2.1 ∧ t.2.1 < 4.189 ∧
    -2.697 < t.2.2 ∧ t.2.2 < -0.916

noncomputable instance (t : ℝ × ℝ × ℝ) : Decidable (limits_ok t) := by
  unfold limits_ok; infer_instance

/-- Column iteration order of `posture.items()`. -/
def legs : List Leg := [.fr, .fl, .hr, .hl]

/-- The per-leg loop of `postural_control`: for each leg in column order,
compute the candidate triple, write it into the working copy of the
posture, and abort (`none`) as soon as the limit check fails.  A NaN-bearing
candidate (`none`) also fails the check, because every float comparison
with NaN is false.  On completion the fully rewritten working copy is the
posture dispatched to the motors. -/
noncomputable def runLegs (α β γ Δz : ℝ) : List Leg → Posture → Option Posture
  | [], buf => some buf
  | leg :: rest, buf =>
    match legCandidate α β γ Δz leg (buf.get leg) with
    | none => none
    | some tri =>
      if limits_ok tri then runLegs α β γ Δz rest (buf.set leg tri) else none

/-- Model of `A1.postural_control`: given the transform parameters and the
starting posture (the sensed posture, or the copy of a caller-supplied
reference posture made at line 113), it returns `some q` when the cycle
completes and dispatches the batched motor command `q`, and `none` when the
cycle aborts at some leg and dispatches nothing.  The Python method itself
always returns `None`; success or rejection is distinguishable to the
caller only through whether motor commands were issued. -/
noncomputable def postural_control (α β γ Δz : ℝ) (p0 : Posture) : Option Posture :=
  runLegs α β γ Δz legs p0

/-- The posture held by the actuator after one `postural_control` cycle:
unchanged on abort, replaced by the dispatched candidate on success. -/
noncomputable def postural_control_effect (α β γ Δz : ℝ) (p0 act : Posture) : Posture :=
  match postural_control α β γ Δz p0 with
  | none => act
  | some q => q

end A1

namespace A1

/-- Value of `arctan2` on a vector given in polar form with positive radius
and angle in `(-π, π]`. -/
lemma arctan2_rot (R t : ℝ) (hR : 0 < R) (htl : -Real.pi < t) (htu : t ≤ Real.pi) :
    arctan2 (R * Real.sin t) (R * Real.cos t) = t := by
  have h1 : (⟨R * Real.cos t, R * Real.sin t⟩ : ℂ)
      = (R : ℂ) * (Complex.cos t + Complex.sin t * Complex.I) := by
    apply Complex.ext <;>
      simp [Complex.cos_ofReal_re, Complex.sin_ofReal_re, Complex.cos_ofReal_im,
        Complex.sin_ofReal_im]
  unfold arctan2
  rw [h1, Complex.arg_mul_cos_add_sin_mul_I hR ⟨htl, htu⟩]

/-- For a first-quadrant vector, `arctan2` lies in `(0, π/2)` and its cosine
and sine recover the normalised components. -/
lemma arctan2_first_quadrant (a b : ℝ) (ha : 0 < a) (hb : 0 < b) :
    0 < arctan2 a b ∧ arctan2 a b < Real.pi / 2 ∧
      Real.cos (arctan2 a b) = b / Real.sqrt (b ^ 2 + a ^ 2) ∧
      Real.sin (arctan2 a b) = a / Real.sqrt (b ^ 2 + a ^ 2) := by
  have hw : (⟨b, a⟩ : ℂ) ≠ 0 := by
    intro h
    have := congrArg Complex.re h
    simp at this
    exact hb.ne' this
  have habs : Complex.abs ⟨b, a⟩ = Real.sqrt (b ^ 2 + a ^ 2) := by
    rw [Complex.abs_apply, Complex.normSq_mk]
    ring_nf
  have hcos : Real.cos (arctan2 a b) = b / Real.sqrt (b ^ 2 + a ^ 2) := by
    unfold arctan2
    rw [Complex.cos_arg hw, habs]
  have hsin : Real.sin (arctan2 a b) = a / Real.sqrt (b ^ 2 + a ^ 2) := by
    unfold arctan2
    rw [Complex.sin_arg, habs]
  have hlt : arctan2 a b < Real.pi / 2 := by
    have : |Complex.arg ⟨b, a⟩| < Real.pi / 2 :=
      Complex.abs_arg_lt_pi_div_two_iff.mpr (Or.inl (by simpa using hb))
    have := abs_lt.mp this
    exact this.2
  have hgt0 : 0 < arctan2 a b := by
    by_contra hle
    push_neg at hle
    have hsin_le : Real.sin (arctan2 a b) ≤ 0 := by
      apply Real.sin_nonpos_of_nonnpos_of_neg_pi_le hle
      have : -Real.pi < arctan2 a b := (Complex.arg_mem_Ioc ⟨b, a⟩).1
      linarith
    have hRpos : 0 < Real.sqrt (b ^ 2 + a ^ 2) := by
      apply Real.sqrt_pos.mpr
      nlinarith
    rw [hsin] at hsin_le
    have : 0 < a / Real.sqrt (b ^ 2 + a ^ 2) := div_pos ha hRpos
    linarith
  exact ⟨hgt0, hlt, hcos, hsin⟩

/-- Rotating the first-quadrant vector `(o, h)` by an angle `θ` of magnitude
at most `1.5` adds `θ` to its `arctan2`. -/
lemma arctan2_rot_add (o h θ : ℝ) (ho : 0 < o) (hh : 0 < h)
    (hbl : -1.5 ≤ θ) (hbu : θ ≤ 1.5) :
    arctan2 (o * Real.sin θ + h * Real.cos θ) (o * Real.cos θ - h * Real.sin θ)
      = arctan2 h o + θ := by
  obtain ⟨hφ0, hφπ, hcosφ, hsinφ⟩ := arctan2_first_quadrant h o hh ho
  set φ := arctan2 h o with hφdef
  set R := Real.sqrt (o ^ 2 + h ^ 2) with hRdef
  have hRpos : 0 < R := by
    rw [hRdef]
    apply Real.sqrt_pos.mpr
    nlinarith
  have hpi := Real.pi_gt_d4
  have hy : o * Real.sin θ + h * Real.cos θ = R * Real.sin (φ + θ) := by
    rw [Real.sin_add, hsinφ, hcosφ]
    field_simp
    try ring
  have hx : o * Real.cos θ - h * Real.sin θ = R * Real.cos (φ + θ) := by
    rw [Real.cos_add, hsinφ, hcosφ]
    field_simp
    try ring
  rw [hy, hx]
  exact arctan2_rot R (φ + θ) hRpos (by linarith) (by linarith)

end A1

namespace A1

set_option maxHeartbeats 1600000 in
/-- Planar two-link facts shared by all legs: with `x` and `h` produced by
the forward kinematics, the knee-cosine guard holds, `x² + h²` is positive,
and the `θ1`/`θ2` formulas of the inverse kinematics recover the original
angles, under the motor-range bounds and a positive reach `h`. -/
lemma planar_pack (θ1 θ2 x h : ℝ)
    (hxd : x = -200 * Real.sin θ1 - 200 * Real.sin (θ1 + θ2))
    (hhd : h = 200 * Real.cos θ1 + 200 * Real.cos (θ1 + θ2))
    (h1l : -1.047 ≤ θ1) (h1u : θ1 ≤ 4.189)
    (h2l : -2.697 ≤ θ2) (h2u : θ2 ≤ -0.916)
    (hh : 0 < h) :
    ((-(200:ℝ) ^ 2 - 200 ^ 2 + x ^ 2 + h ^ 2) / (2 * 200 * 200)) ^ 2 ≤ 1 ∧
      0 < x ^ 2 + h ^ 2 ∧
      Real.arccos (((200:ℝ) ^ 2 + x ^ 2 + h ^ 2 - 200 ^ 2) / (2 * 200 * Real.sqrt (x ^ 2 + h ^ 2)))
          - arctan2 x h = θ1 ∧
      arctan2 (-Real.sqrt (1 - ((-(200:ℝ) ^ 2 - 200 ^ 2 + x ^ 2 + h ^ 2) / (2 * 200 * 200)) ^ 2))
          ((-(200:ℝ) ^ 2 - 200 ^ 2 + x ^ 2 + h ^ 2) / (2 * 200 * 200)) = θ2 := by
  have hpi := Real.pi_gt_d4
  have hpi2 := Real.pi_lt_d4
  have es1 : Real.sin (θ1 + θ2)
      = Real.sin (θ1 + θ2 / 2) * Real.cos (θ2 / 2) + Real.cos (θ1 + θ2 / 2) * Real.sin (θ2 / 2) := by
    have t := Real.sin_add (θ1 + θ2 / 2) (θ2 / 2)
    rw [show θ1 + θ2 / 2 + θ2 / 2 = θ1 + θ2 by ring] at t
    exact t
  have es2 : Real.sin θ1
      = Real.sin (θ1 + θ2 / 2) * Real.cos (θ2 / 2) - Real.cos (θ1 + θ2 / 2) * Real.sin (θ2 / 2) := by
    have t := Real.sin_sub (θ1 + θ2 / 2) (θ2 / 2)
    rw [show θ1 + θ2 / 2 - θ2 / 2 = θ1 by ring] at t
    exact t
  have ec1 : Real.cos (θ1 + θ2)
      = Real.cos (θ1 + θ2 / 2) * Real.cos (θ2 / 2) - Real.sin (θ1 + θ2 / 2) * Real.sin (θ2 / 2) := by
    have t := Real.cos_add (θ1 + θ2 / 2) (θ2 / 2)
    rw [show θ1 + θ2 / 2 + θ2 / 2 = θ1 + θ2 by ring] at t
    exact t
  have ec2 : Real.cos θ1
      = Real.cos (θ1 + θ2 / 2) * Real.cos (θ2 / 2) + Real.sin (θ1 + θ2 / 2) * Real.sin (θ2 / 2) := by
    have t := Real.cos_sub (θ1 + θ2 / 2) (θ2 / 2)
    rw [show θ1 + θ2 / 2 - θ2 / 2 = θ1 by ring] at t
    exact t
  have hxR : x = -((400 * Real.cos (θ2 / 2)) * Real.sin (θ1 + θ2 / 2)) := by
    rw [hxd, es1, es2]; ring
  have hhR : h = (400 * Real.cos (θ2 / 2)) * Real.cos (θ1 + θ2 / 2) := by
    rw [hhd, ec1, ec2]; ring
  have hcosτ : 0 < Real.cos (θ2 / 2) := by
    apply Real.cos_pos_of_mem_Ioo
    exact Set.mem_Ioo.mpr ⟨by linarith, by linarith⟩
  have hR4 : 0 < 400 * Real.cos (θ2 / 2) := by linarith
  have hxh : x ^ 2 + h ^ 2 = (400 * Real.cos (θ2 / 2)) ^ 2 := by
    rw [hxR, hhR]
    linear_combination (400 * Real.cos (θ2 / 2)) ^ 2 * Real.sin_sq_add_cos_sq (θ1 + θ2 / 2)
  have hxhpos : 0 < x ^ 2 + h ^ 2 := by rw [hxh]; positivity
  have hsqrt_xh : Real.sqrt (x ^ 2 + h ^ 2) = 400 * Real.cos (θ2 / 2) := by
    rw [hxh, Real.sqrt_sq hR4.le]
  have hcos2 : (-(200:ℝ) ^ 2 - 200 ^ 2 + x ^ 2 + h ^ 2) / (2 * 200 * 200) = Real.cos θ2 := by
    rw [div_eq_iff (by norm_num : (2:ℝ) * 200 * 200 ≠ 0)]
    have t := Real.cos_sub (θ1 + θ2) θ1
    rw [add_sub_cancel_left] at t
    rw [hxd, hhd]
    linear_combination 40000 * Real.sin_sq_add_cos_sq θ1
      + 40000 * Real.sin_sq_add_cos_sq (θ1 + θ2) - 80000 * t
  have hcosψ : 0 < Real.cos (θ1 + θ2 / 2) := by
    by_contra hcp
    push_neg at hcp
    rw [hhR] at hh
    nlinarith
  have hψu : θ1 + θ2 / 2 < Real.pi / 2 := by
    by_contra hcc
    push_neg at hcc
    have : Real.cos (θ1 + θ2 / 2) ≤ 0 :=
      Real.cos_nonpos_of_pi_div_two_le_of_le hcc (by linarith)
    linarith
  have hψl : -(Real.pi / 2) < θ1 + θ2 / 2 := by
    by_contra hcc
    push_neg at hcc
    have h1 : Real.cos (-(θ1 + θ2 / 2)) ≤ 0 :=
      Real.cos_nonpos_of_pi_div_two_le_of_le (by linarith) (by linarith)
    rw [Real.cos_neg] at h1
    linarith
  refine ⟨?_, hxhpos, ?_, ?_⟩
  · rw [hcos2]
    nlinarith [Real.neg_one_le_cos θ2, Real.cos_le_one θ2]
  · have hden : (0:ℝ) < 2 * 200 * (400 * Real.cos (θ2 / 2)) := by nlinarith [hcosτ]
    have hargcc : ((200:ℝ) ^ 2 + x ^ 2 + h ^ 2 - 200 ^ 2)
        / (2 * 200 * Real.sqrt (x ^ 2 + h ^ 2)) = Real.cos (θ2 / 2) := by
      rw [hsqrt_xh, div_eq_iff (ne_of_gt hden)]
      linear_combination hxh
    rw [hargcc]
    have harc : Real.arccos (Real.cos (θ2 / 2)) = -(θ2 / 2) := by
      rw [show Real.cos (θ2 / 2) = Real.cos (-(θ2 / 2)) from (Real.cos_neg _).symm]
      exact Real.arccos_cos (by linarith) (by linarith)
    rw [harc]
    have hxt : x = (400 * Real.cos (θ2 / 2)) * Real.sin (-(θ1 + θ2 / 2)) := by
      rw [Real.sin_neg, hxR]; ring
    have hht : h = (400 * Real.cos (θ2 / 2)) * Real.cos (-(θ1 + θ2 / 2)) := by
      rw [Real.cos_neg]; exact hhR
    rw [hxt, hht,
      arctan2_rot (400 * Real.cos (θ2 / 2)) (-(θ1 + θ2 / 2)) hR4 (by linarith) (by linarith)]
    ring
  · rw [hcos2]
    have hsin2neg : Real.sin θ2 < 0 :=
      Real.sin_neg_of_neg_of_neg_pi_lt (by linarith) (by linarith)
    have h1c : 1 - Real.cos θ2 ^ 2 = Real.sin θ2 ^ 2 := by
      linear_combination -Real.sin_sq_add_cos_sq θ2
    rw [h1c, Real.sqrt_sq_eq_abs, abs_of_neg hsin2neg, neg_neg]
    rw [show Real.sin θ2 = 1 * Real.sin θ2 from (one_mul _).symm,
      show Real.cos θ2 = 1 * Real.cos θ2 from (one_mul _).symm]
    exact arctan2_rot 1 θ2 one_pos (by linarith) (by linarith)

end A1

namespace A1

set_option maxHeartbeats 1600000 in
/-- Exact FK/IK round trip for the front-right formulas. -/
lemma ik_fk_exact_fr (θ0 θ1 θ2 : ℝ)
    (h00 : -1.5 ≤ θ0) (h01 : θ0 ≤ 1.5)
    (h1l : -1.047 ≤ θ1) (h1u : θ1 ≤ 4.189)
    (h2l : -2.697 ≤ θ2) (h2u : θ2 ≤ -0.916)
    (hh : 0 < 200 * Real.cos θ1 + 200 * Real.cos (θ1 + θ2))
    (hz : (forward_kinematics Leg.fr θ0 θ1 θ2).2.2 < 0) :
    inverse_kinematics Leg.fr (forward_kinematics Leg.fr θ0 θ1 θ2).1
      (forward_kinematics Leg.fr θ0 θ1 θ2).2.1 (forward_kinematics Leg.fr θ0 θ1 θ2).2.2
      = some (θ0, θ1, θ2) := by
  simp only [forward_kinematics, inverse_kinematics, thigh_len, shank_len, hip_offset] at hz ⊢
  set h : ℝ := 200 * Real.cos θ1 + 200 * Real.cos (θ1 + θ2) with hhd
  set x : ℝ := -200 * Real.sin θ1 - 200 * Real.sin (θ1 + θ2) with hxd
  set yv : ℝ := 80 * Real.cos θ0 - h * Real.sin θ0 with hyd
  set zv : ℝ := -80 * Real.sin θ0 - h * Real.cos θ0 with hzd
  have hE1 : zv ^ 2 + yv ^ 2 - 80 ^ 2 = h ^ 2 := by
    rw [hzd, hyd]
    linear_combination ((80:ℝ) ^ 2 + h ^ 2) * Real.sin_sq_add_cos_sq θ0
  have hsq : Real.sqrt (zv ^ 2 + yv ^ 2 - 80 ^ 2) = h := by
    rw [hE1, Real.sqrt_sq hh.le]
  simp only [hsq]
  obtain ⟨g1, g2, g3, g4⟩ := planar_pack θ1 θ2 x h hxd hhd h1l h1u h2l h2u hh
  have c1 : 0 ≤ zv ^ 2 + yv ^ 2 - 80 ^ 2 := by rw [hE1]; positivity
  rw [if_pos ⟨c1, g1, g2⟩]
  simp only [Option.some.injEq, Prod.mk.injEq]
  refine ⟨?_, g3, g4⟩
  have habs : |zv| = 80 * Real.sin θ0 + h * Real.cos θ0 := by
    rw [abs_of_neg hz, hzd]; ring
  rw [habs, hyd, arctan2_rot_add 80 h θ0 (by norm_num) hh h00 h01]
  ring

set_option maxHeartbeats 1600000 in
/-- Exact FK/IK round trip for the front-left formulas. -/
lemma ik_fk_exact_fl (θ0 θ1 θ2 : ℝ)
    (h00 : -1.5 ≤ θ0) (h01 : θ0 ≤ 1.5)
    (h1l : -1.047 ≤ θ1) (h1u : θ1 ≤ 4.189)
    (h2l : -2.697 ≤ θ2) (h2u : θ2 ≤ -0.916)
    (hh : 0 < 200 * Real.cos θ1 + 200 * Real.cos (θ1 + θ2))
    (hz : (forward_kinematics Leg.fl θ0 θ1 θ2).2.2 < 0) :
    inverse_kinematics Leg.fl (forward_kinematics Leg.fl θ0 θ1 θ2).1
      (forward_kinematics Leg.fl θ0 θ1 θ2).2.1 (forward_kinematics Leg.fl θ0 θ1 θ2).2.2
      = some (θ0, θ1, θ2) := by
  simp only [forward_kinematics, inverse_kinematics, thigh_len, shank_len, hip_offset] at hz ⊢
  set h : ℝ := 200 * Real.cos θ1 + 200 * Real.cos (θ1 + θ2) with hhd
  set x : ℝ := -200 * Real.sin θ1 - 200 * Real.sin (θ1 + θ2) with hxd
  set yv : ℝ := -80 * Real.cos θ0 - h * Real.sin θ0 with hyd
  set zv : ℝ := 80 * Real.sin θ0 - h * Real.cos θ0 with hzd
  have hE1 : zv ^ 2 + yv ^ 2 - 80 ^ 2 = h ^ 2 := by
    rw [hzd, hyd]
    linear_combination ((80:ℝ) ^ 2 + h ^ 2) * Real.sin_sq_add_cos_sq θ0
  have hsq : Real.sqrt (zv ^ 2 + yv ^ 2 - 80 ^ 2) = h := by
    rw [hE1, Real.sqrt_sq hh.le]
  simp only [hsq]
  obtain ⟨g1, g2, g3, g4⟩ := planar_pack θ1 θ2 x h hxd hhd h1l h1u h2l h2u hh
  have c1 : 0 ≤ zv ^ 2 + yv ^ 2 - 80 ^ 2 := by rw [hE1]; positivity
  rw [if_pos ⟨c1, g1, g2⟩]
  simp only [Option.some.injEq, Prod.mk.injEq]
  refine ⟨?_, g3, g4⟩
  have habs : |zv| = 80 * Real.sin (-θ0) + h * Real.cos (-θ0) := by
    rw [abs_of_neg hz, hzd, Real.sin_neg, Real.cos_neg]; ring
  have hny : -yv = 80 * Real.cos (-θ0) - h * Real.sin (-θ0) := by
    rw [hyd, Real.sin_neg, Real.cos_neg]; ring
  rw [habs, hny, arctan2_rot_add 80 h (-θ0) (by norm_num) hh (by linarith) (by linarith)]
  ring

/-- Exact FK/IK round trip: for any leg and angles within the (closed) motor
ranges, with positive planar reach `h` and the toe strictly below the hip,
the inverse kinematics of the forward-kinematics toe point returns the
original triple exactly. -/
lemma ik_fk_exact (leg : Leg) (θ0 θ1 θ2 : ℝ)
    (h00 : -1.5 ≤ θ0) (h01 : θ0 ≤ 1.5)
    (h1l : -1.047 ≤ θ1) (h1u : θ1 ≤ 4.189)
    (h2l : -2.697 ≤ θ2) (h2u : θ2 ≤ -0.916)
    (hh : 0 < thigh_len * Real.cos θ1 + shank_len * Real.cos (θ1 + θ2))
    (hz : (forward_kinematics leg θ0 θ1 θ2).2.2 < 0) :
    inverse_kinematics leg (forward_kinematics leg θ0 θ1 θ2).1
      (forward_kinematics leg θ0 θ1 θ2).2.1 (forward_kinematics leg θ0 θ1 θ2).2.2
      = some (θ0, θ1, θ2) := by
  simp only [thigh_len, shank_len] at hh
  cases leg
  case fr => exact ik_fk_exact_fr θ0 θ1 θ2 h00 h01 h1l h1u h2l h2u hh hz
  case fl => exact ik_fk_exact_fl θ0 θ1 θ2 h00 h01 h1l h1u h2l h2u hh hz
  case hr => exact ik_fk_exact_fr θ0 θ1 θ2 h00 h01 h1l h1u h2l h2u hh hz
  case hl => exact ik_fk_exact_fl θ0 θ1 θ2 h00 h01 h1l h1u h2l h2u hh hz

end A1

namespace A1

/-- With `yaw = pitch = roll = Δz = 0` every per-leg toe transform is the
identity. -/
lemma transform_toe_zero (leg : Leg) (p : ℝ × ℝ × ℝ) :
    transform_toe leg 0 0 0 0 p = p := by
  cases leg <;>
    simp [transform_toe, Real.cos_zero, Real.sin_zero]

/-- If a cycle completes (`some q`), every leg passed: its candidate was a
real (non-NaN) triple inside the strict limits, computed from the starting
posture's own column, and it is the corresponding column of the dispatched
posture. -/
lemma postural_control_some_inv (α β γ Δz : ℝ) (p0 q : Posture)
    (h : postural_control α β γ Δz p0 = some q) :
    ∀ leg : Leg, legCandidate α β γ Δz leg (p0.get leg) = some (q.get leg) ∧
      limits_ok (q.get leg) := by
  simp only [postural_control, legs, runLegs, Posture.get, Posture.set] at h
  rcases hfr : legCandidate α β γ Δz Leg.fr p0.fr with _ | a
  · rw [hfr] at h; simp at h
  rw [hfr] at h
  simp only [] at h
  by_cases ha : limits_ok a
  swap
  · rw [if_neg ha] at h; simp at h
  rw [if_pos ha] at h
  rcases hfl : legCandidate α β γ Δz Leg.fl p0.fl with _ | b
  · rw [hfl] at h; simp at h
  rw [hfl] at h
  simp only [] at h
  by_cases hb : limits_ok b
  swap
  · rw [if_neg hb] at h; simp at h
  rw [if_pos hb] at h
  rcases hhr : legCandidate α β γ Δz Leg.hr p0.hr with _ | c
  · rw [hhr] at h; simp at h
  rw [hhr] at h
  simp only [] at h
  by_cases hc : limits_ok c
  swap
  · rw [if_neg hc] at h; simp at h
  rw [if_pos hc] at h
  rcases hhl : legCandidate α β γ Δz Leg.hl p0.hl with _ | d
  · rw [hhl] at h; simp at h
  rw [hhl] at h
  simp only [] at h
  by_cases hd : limits_ok d
  swap
  · rw [if_neg hd] at h; simp at h
  rw [if_pos hd] at h
  have hq : q = Posture.mk a b c d := by
    cases h' : h.symm
    rfl
  subst hq
  intro leg
  cases leg <;> simp [Posture.get, hfr, hfl, hhr, hhl, ha, hb, hc, hd]

/-- If every leg's candidate (computed from the starting posture's own
column) is a real triple inside the strict limits, the cycle completes and
dispatches exactly those four candidates. -/
lemma postural_control_of_candidates (α β γ Δz : ℝ) (p0 : Posture)
    (a b c d : ℝ × ℝ × ℝ)
    (hfr : legCandidate α β γ Δz Leg.fr p0.fr = some a) (ha : limits_ok a)
    (hfl : legCandidate α β γ Δz Leg.fl p0.fl = some b) (hb : limits_ok b)
    (hhr : legCandidate α β γ Δz Leg.hr p0.hr = some c) (hc : limits_ok c)
    (hhl : legCandidate α β γ Δz Leg.hl p0.hl = some d) (hd : limits_ok d) :
    postural_control α β γ Δz p0 = some (Posture.mk a b c d) := by
  simp only [postural_control, legs, runLegs, Posture.get, Posture.set]
  rw [hfr]
  simp only [] 
  rw [if_pos ha, hfl]
  simp only []
  rw [if_pos hb, hhr]
  simp only []
  rw [if_pos hc, hhl]
  simp only []
  rw [if_pos hd]

/-- If some leg's candidate is NaN-bearing (`none`) or violates the strict
limits, the cycle aborts: nothing is dispatched. -/
lemma postural_control_abort (α β γ Δz : ℝ) (p0 : Posture) (leg : Leg)
    (hbad : ∀ t, legCandidate α β γ Δz leg (p0.get leg) = some t → ¬ limits_ok t) :
    postural_control α β γ Δz p0 = none := by
  rcases hres : postural_control α β γ Δz p0 with _ | q
  · rfl
  · exfalso
    obtain ⟨hc, hl⟩ := postural_control_some_inv α β γ Δz p0 q hres leg
    exact hbad _ hc hl

end A1

namespace A1

/-- With zero attitude parameters, a leg's candidate is the plain FK/IK
round trip of its own triple, which is exact under the round-trip
conditions. -/
lemma legCandidate_zero_eq (leg : Leg) (θ0 θ1 θ2 : ℝ)
    (h00 : -1.5 ≤ θ0) (h01 : θ0 ≤ 1.5)
    (h1l : -1.047 ≤ θ1) (h1u : θ1 ≤ 4.189)
    (h2l : -2.697 ≤ θ2) (h2u : θ2 ≤ -0.916)
    (hh : 0 < thigh_len * Real.cos θ1 + shank_len * Real.cos (θ1 + θ2))
    (hz : (forward_kinematics leg θ0 θ1 θ2).2.2 < 0) :
    legCandidate 0 0 0 0 leg (θ0, θ1, θ2) = some (θ0, θ1, θ2) := by
  unfold legCandidate
  simp only [transform_toe_zero]
  exact ik_fk_exact leg θ0 θ1 θ2 h00 h01 h1l h1u h2l h2u hh hz

/-- With zero attitude angles and nonzero `Δz`, the toe transform only
shifts `z` by `-Δz`. -/
lemma transform_toe_zero_dz (leg : Leg) (Δz : ℝ) (p : ℝ × ℝ × ℝ) :
    transform_toe leg 0 0 0 Δz p = (p.1, p.2.1, p.2.2 - Δz) := by
  cases leg <;>
    simp [transform_toe, Real.cos_zero, Real.sin_zero]

/-- A standing triple used as a concrete reference value: hips centred,
knee bent a right angle. -/
noncomputable def home_triple : ℝ × ℝ × ℝ := (0, 0, -(Real.pi / 2))

/-- The posture whose four columns are all `home_triple`. -/
noncomputable def home_posture : Posture :=
  ⟨home_triple, home_triple, home_triple, home_triple⟩

lemma limits_ok_home : limits_ok home_triple := by
  have h1 := Real.pi_gt_d2
  have h2 := Real.pi_lt_d2
  unfold limits_ok home_triple
  refine ⟨by norm_num, by norm_num, by norm_num, by norm_num, by linarith, by linarith⟩

/-- The forward kinematics of the front-right leg at the standing triple. -/
lemma fk_home_fr : forward_kinematics Leg.fr 0 0 (-(Real.pi / 2)) = (200, 80, -200) := by
  simp [forward_kinematics, thigh_len, shank_len, hip_offset, Real.cos_zero, Real.sin_zero,
    Real.cos_pi_div_two, Real.sin_pi_div_two, Real.cos_neg, Real.sin_neg]

/-- Every leg's candidate at the standing triple with zero parameters is the
standing triple itself. -/
lemma legCandidate_home (leg : Leg) :
    legCandidate 0 0 0 0 leg home_triple = some home_triple := by
  have h1 := Real.pi_gt_d2
  have h2 := Real.pi_lt_d2
  unfold home_triple
  apply legCandidate_zero_eq leg 0 0 (-(Real.pi / 2)) (by norm_num) (by norm_num) (by norm_num)
    (by norm_num) (by linarith) (by linarith)
  · simp only [thigh_len, shank_len]
    rw [zero_add, Real.cos_neg, Real.cos_pi_div_two, Real.cos_zero]
    norm_num
  · cases leg <;>
      simp [forward_kinematics, thigh_len, shank_len, hip_offset, Real.cos_zero, Real.sin_zero,
        Real.cos_pi_div_two, Real.sin_pi_div_two, Real.cos_neg, Real.sin_neg]

/-- The cycle at the standing posture with all parameters zero completes and
dispatches the standing posture back. -/
lemma postural_control_home :
    postural_control 0 0 0 0 home_posture = some home_posture := by
  have hcand : ∀ leg : Leg, legCandidate 0 0 0 0 leg home_triple = some home_triple :=
    legCandidate_home
  have := postural_control_of_candidates 0 0 0 0 home_posture
    home_triple home_triple home_triple home_triple
    (hcand Leg.fr) limits_ok_home (hcand Leg.fl) limits_ok_home
    (hcand Leg.hr) limits_ok_home (hcand Leg.hl) limits_ok_home
  exact this

/-- The inverse kinematics at a toe point far below the reachable sphere is
NaN-bearing (`none`): the knee-cosine guard fails. -/
lemma ik_far_none : inverse_kinematics Leg.fr 200 80 (-1200) = none := by
  simp only [inverse_kinematics, thigh_len, shank_len, hip_offset]
  rw [if_neg]
  intro hcon
  obtain ⟨h1, h2, h3⟩ := hcon
  rw [Real.sq_sqrt (by norm_num : (0:ℝ) ≤ (-1200:ℝ) ^ 2 + 80 ^ 2 - 80 ^ 2)] at h2
  norm_num at h2

/-- A height command of `Δz = 1000` pushes the standing front-right toe out
of reach, so its candidate is NaN-bearing. -/
lemma legCandidate_far_none : legCandidate 0 0 0 1000 Leg.fr home_triple = none := by
  simp only [legCandidate, home_triple]
  rw [fk_home_fr, transform_toe_zero_dz]
  norm_num
  exact ik_far_none

end A1

namespace A1

lemma sqrt_two_mul_self : Real.sqrt 2 * Real.sqrt 2 = 2 :=
  Real.mul_self_sqrt (by norm_num)

lemma arctan2_neg200_200 : arctan2 (-200 : ℝ) 200 = -(Real.pi / 4) := by
  have hpi := Real.pi_gt_d2
  have hpos : (0:ℝ) < 200 * Real.sqrt 2 := by positivity
  have t := arctan2_rot (200 * Real.sqrt 2) (-(Real.pi / 4)) hpos (by linarith) (by linarith)
  rw [Real.sin_neg, Real.sin_pi_div_four, Real.cos_neg, Real.cos_pi_div_four] at t
  have e1 : 200 * Real.sqrt 2 * -(Real.sqrt 2 / 2) = (-200 : ℝ) := by
    linear_combination (-100 : ℝ) * sqrt_two_mul_self
  have e2 : 200 * Real.sqrt 2 * (Real.sqrt 2 / 2) = (200 : ℝ) := by
    linear_combination (100 : ℝ) * sqrt_two_mul_self
  rw [e1, e2] at t
  exact t

lemma arctan2_neg1_0 : arctan2 (-1 : ℝ) 0 = -(Real.pi / 2) := by
  have hpi := Real.pi_gt_d2
  have t := arctan2_rot 1 (-(Real.pi / 2)) one_pos (by linarith) (by linarith)
  rw [Real.sin_neg, Real.sin_pi_div_two, Real.cos_neg, Real.cos_pi_div_two] at t
  norm_num at t
  exact t

lemma sqrt_80000 : Real.sqrt ((-200 : ℝ) ^ 2 + 200 ^ 2) = 200 * Real.sqrt 2 := by
  rw [show ((-200 : ℝ)) ^ 2 + 200 ^ 2 = (200 * Real.sqrt 2) ^ 2 by
    rw [mul_pow, Real.sq_sqrt (by norm_num : (0:ℝ) ≤ 2)]; norm_num]
  exact Real.sqrt_sq (by positivity)

lemma arccos_half_reach : Real.arccos (((200:ℝ) ^ 2 + (-200) ^ 2 + 200 ^ 2 - 200 ^ 2)
    / (2 * 200 * Real.sqrt ((-200) ^ 2 + 200 ^ 2))) = Real.pi / 4 := by
  have hpi := Real.pi_gt_d2
  have harg : ((200:ℝ) ^ 2 + (-200) ^ 2 + 200 ^ 2 - 200 ^ 2)
      / (2 * 200 * Real.sqrt ((-200) ^ 2 + 200 ^ 2)) = Real.sqrt 2 / 2 := by
    rw [sqrt_80000, div_eq_div_iff (ne_of_gt (by positivity)) (by norm_num : (2:ℝ) ≠ 0)]
    linear_combination (-80000 : ℝ) * sqrt_two_mul_self
  rw [harg, show Real.sqrt 2 / 2 = Real.cos (Real.pi / 4) from Real.cos_pi_div_four.symm,
    Real.arccos_cos (by positivity) (by linarith)]

/-- Value of the inverse kinematics at the front-right toe point produced by
the in-range triple `(0, π, -π/2)`: the returned flexion angle is `π/2`,
not `π`. -/
lemma ik_c2_eval_fr : inverse_kinematics Leg.fr (-200) 80 200
    = some (0, Real.pi / 2, -(Real.pi / 2)) := by
  have h200 : Real.sqrt ((200:ℝ) ^ 2 + 80 ^ 2 - 80 ^ 2) = 200 := by
    rw [show (200:ℝ) ^ 2 + 80 ^ 2 - 80 ^ 2 = 200 ^ 2 by norm_num,
      Real.sqrt_sq (by norm_num : (0:ℝ) ≤ 200)]
  simp only [inverse_kinematics, thigh_len, shank_len, hip_offset]
  rw [h200]
  have hc2 : (-(200:ℝ) ^ 2 - 200 ^ 2 + (-200) ^ 2 + 200 ^ 2) / (2 * 200 * 200) = 0 := by
    norm_num
  rw [hc2, if_pos ⟨by norm_num, by norm_num, by norm_num⟩]
  simp only [Option.some.injEq, Prod.mk.injEq]
  refine ⟨?_, ?_, ?_⟩
  · rw [show |(200:ℝ)| = 200 by norm_num]
    exact sub_self _
  · rw [arccos_half_reach, arctan2_neg200_200]
    ring
  · rw [show (1:ℝ) - 0 ^ 2 = 1 by norm_num, Real.sqrt_one]
    exact arctan2_neg1_0

/-- Value of the inverse kinematics at the front-left toe point produced by
the in-range triple `(0, π, -π/2)`. -/
lemma ik_c2_eval_fl : inverse_kinematics Leg.fl (-200) (-80) 200
    = some (0, Real.pi / 2, -(Real.pi / 2)) := by
  have h200 : Real.sqrt ((200:ℝ) ^ 2 + (-80) ^ 2 - 80 ^ 2) = 200 := by
    rw [show (200:ℝ) ^ 2 + (-80) ^ 2 - 80 ^ 2 = 200 ^ 2 by norm_num,
      Real.sqrt_sq (by norm_num : (0:ℝ) ≤ 200)]
  simp only [inverse_kinematics, thigh_len, shank_len, hip_offset]
  rw [h200]
  have hc2 : (-(200:ℝ) ^ 2 - 200 ^ 2 + (-200) ^ 2 + 200 ^ 2) / (2 * 200 * 200) = 0 := by
    norm_num
  rw [hc2, if_pos ⟨by norm_num, by norm_num, by norm_num⟩]
  simp only [Option.some.injEq, Prod.mk.injEq]
  refine ⟨?_, ?_, ?_⟩
  · rw [show |(200:ℝ)| = 200 by norm_num, show -(-80 : ℝ) = 80 by norm_num]
    exact sub_self _
  · rw [arccos_half_reach, arctan2_neg200_200]
    ring
  · rw [show (1:ℝ) - 0 ^ 2 = 1 by norm_num, Real.sqrt_one]
    exact arctan2_neg1_0

/-- The forward kinematics of the front-right leg at `(0, π, -π/2)`: the
reach `h` is negative and the toe sits above the hip. -/
lemma fk_c2_fr : forward_kinematics Leg.fr 0 Real.pi (-(Real.pi / 2)) = (-200, 80, 200) := by
  have harg : Real.pi + -(Real.pi / 2) = Real.pi / 2 := by ring
  simp [forward_kinematics, thigh_len, shank_len, hip_offset, harg, Real.cos_pi, Real.sin_pi,
    Real.cos_pi_div_two, Real.sin_pi_div_two, Real.cos_zero, Real.sin_zero]

/-- The forward kinematics of the front-left leg at `(0, π, -π/2)`. -/
lemma fk_c2_fl : forward_kinematics Leg.fl 0 Real.pi (-(Real.pi / 2)) = (-200, -80, 200) := by
  have harg : Real.pi + -(Real.pi / 2) = Real.pi / 2 := by ring
  simp [forward_kinematics, thigh_len, shank_len, hip_offset, harg, Real.cos_pi, Real.sin_pi,
    Real.cos_pi_div_two, Real.sin_pi_div_two, Real.cos_zero, Real.sin_zero]

end A1

namespace A1

/-- A candidate triple that violates the strict limit check aborts the
cycle. -/
lemma postural_control_abort_of_violation (α β γ Δz : ℝ) (p0 : Posture) (leg : Leg)
    (t : ℝ × ℝ × ℝ)
    (hc : legCandidate α β γ Δz leg (p0.get leg) = some t) (hv : ¬ limits_ok t) :
    postural_control α β γ Δz p0 = none := by
  apply postural_control_abort α β γ Δz p0 leg
  intro u hu
  rw [hc] at hu
  obtain rfl : t = u := by injection hu
  exact hv

/-- An aborted cycle leaves the actuator posture unchanged. -/
lemma effect_of_none (α β γ Δz : ℝ) (p0 act : Posture)
    (h : postural_control α β γ Δz p0 = none) :
    postural_control_effect α β γ Δz p0 act = act := by
  unfold postural_control_effect
  rw [h]

/-- Positive planar reach for a straight hip with the knee at a right
angle. -/
lemma reach_pos_right_angle :
    0 < thigh_len * Real.cos 0 + shank_len * Real.cos (0 + -(Real.pi / 2)) := by
  simp only [thigh_len, shank_len]
  rw [zero_add, Real.cos_neg, Real.cos_pi_div_two, Real.cos_zero]
  norm_num

/-- With a straight hip-flexion angle and the knee at a right angle, the
front-right toe is strictly below the hip for abduction angles in the first
quadrant. -/
lemma fk_z_neg_right (θ0 : ℝ) (hs : 0 ≤ Real.sin θ0) (hc : 0 < Real.cos θ0) :
    (forward_kinematics Leg.fr θ0 0 (-(Real.pi / 2))).2.2 < 0 := by
  simp only [forward_kinematics, thigh_len, shank_len, hip_offset]
  rw [zero_add, Real.cos_neg, Real.cos_pi_div_two, Real.cos_zero]
  nlinarith

/-- C1 (confirmed): if during one `postural_control` cycle any single leg's
candidate triple violates any of its three motor ranges, the whole cycle is
aborted: `postural_control` dispatches nothing (`none`) and the posture held
by the actuator after the cycle is exactly the posture held before it. -/
theorem c1_joint_limit_abort_atomic (α β γ Δz : ℝ) (p0 act : Posture) (leg : Leg)
    (t : ℝ × ℝ × ℝ)
    (hc : legCandidate α β γ Δz leg (p0.get leg) = some t)
    (hv : ¬ limits_ok t) :
    postural_control α β γ Δz p0 = none ∧
      postural_control_effect α β γ Δz p0 act = act := by
  have habort := postural_control_abort_of_violation α β γ Δz p0 leg t hc hv
  exact ⟨habort, effect_of_none α β γ Δz p0 act habort⟩

/-- Witness for C1: hip-abduction candidate `1` rad (above the `0.803`
limit) on the front-right leg aborts the cycle and leaves the actuator at
the prior posture. -/
theorem c1_joint_limit_abort_atomic_witness :
    legCandidate 0 0 0 0 Leg.fr
        ((Posture.mk (1, 0, -(Real.pi / 2)) home_triple home_triple home_triple).get Leg.fr)
        = some (1, 0, -(Real.pi / 2)) ∧
      ¬ limits_ok (1, 0, -(Real.pi / 2)) ∧
      postural_control 0 0 0 0
          (Posture.mk (1, 0, -(Real.pi / 2)) home_triple home_triple home_triple) = none ∧
      postural_control_effect 0 0 0 0
          (Posture.mk (1, 0, -(Real.pi / 2)) home_triple home_triple home_triple) home_posture
        = home_posture := by
  have hpi := Real.pi_gt_d2
  have hpi2 := Real.pi_lt_d2
  have hs : 0 ≤ Real.sin 1 := Real.sin_nonneg_of_nonneg_of_le_pi (by norm_num) (by linarith)
  have hco : 0 < Real.cos 1 := Real.cos_pos_of_mem_Ioo (Set.mem_Ioo.mpr ⟨by linarith, by linarith⟩)
  have hcand : legCandidate 0 0 0 0 Leg.fr (1, 0, -(Real.pi / 2)) = some (1, 0, -(Real.pi / 2)) :=
    legCandidate_zero_eq Leg.fr 1 0 (-(Real.pi / 2)) (by norm_num) (by norm_num) (by norm_num)
      (by norm_num) (by linarith) (by linarith) reach_pos_right_angle (fk_z_neg_right 1 hs hco)
  have hv : ¬ limits_ok ((1 : ℝ), 0, -(Real.pi / 2)) := by
    intro hcon
    exact absurd hcon.2.1 (by norm_num)
  have := c1_joint_limit_abort_atomic 0 0 0 0
    (Posture.mk (1, 0, -(Real.pi / 2)) home_triple home_triple home_triple) home_posture
    Leg.fr (1, 0, -(Real.pi / 2)) hcand hv
  exact ⟨hcand, hv, this.1, this.2⟩

/-- C3 (code bug): for a target with `z² + y² < hip_offset²` the inverse
kinematics of the source does not signal any `UnreachableTarget` outcome; it
computes `np.sqrt` of a negative number and returns a NaN-bearing triple,
modelled here as `none`.  Evaluated at the in-claim failing input
`leg = front-right, (x, y, z) = (0, 0, 0)`. -/
theorem c3_unreachable_yields_nan :
    ((0:ℝ) ^ 2 + (0:ℝ) ^ 2 < hip_offset ^ 2) ∧
      inverse_kinematics Leg.fr 0 0 0 = none := by
  constructor
  · simp only [hip_offset]
    norm_num
  · simp only [inverse_kinematics, thigh_len, shank_len, hip_offset]
    rw [if_neg]
    intro hcon
    obtain ⟨h1, h2, h3⟩ := hcon
    norm_num at h1

/-- C4 counterexample: at `θ = (π/2, 0, -π/2)` the front-right and
front-left toe points are not mirror images: both legs give `y = -200`, so
the left `y` is not the negation of the right `y`. -/
theorem c4_mirror_cex :
    (forward_kinematics Leg.fr (Real.pi / 2) 0 (-(Real.pi / 2))).2.1 = -200 ∧
      (forward_kinematics Leg.fl (Real.pi / 2) 0 (-(Real.pi / 2))).2.1 = -200 ∧
      (forward_kinematics Leg.fl (Real.pi / 2) 0 (-(Real.pi / 2))).2.1
        ≠ -((forward_kinematics Leg.fr (Real.pi / 2) 0 (-(Real.pi / 2))).2.1) := by
  have hfr : (forward_kinematics Leg.fr (Real.pi / 2) 0 (-(Real.pi / 2))).2.1 = -200 := by
    simp [forward_kinematics, thigh_len, shank_len, hip_offset, Real.cos_pi_div_two,
      Real.sin_pi_div_two, Real.cos_neg, Real.sin_neg, Real.cos_zero, Real.sin_zero]
  have hfl : (forward_kinematics Leg.fl (Real.pi / 2) 0 (-(Real.pi / 2))).2.1 = -200 := by
    simp [forward_kinematics, thigh_len, shank_len, hip_offset, Real.cos_pi_div_two,
      Real.sin_pi_div_two, Real.cos_neg, Real.sin_neg, Real.cos_zero, Real.sin_zero]
  refine ⟨hfr, hfl, ?_⟩
  rw [hfr, hfl]
  norm_num

/-- C4 (corrected): the lateral mirror symmetry of the forward kinematics
holds with the hip-abduction angle negated on one side: for every triple,
`FK(front-left, (-θ0, θ1, θ2))` equals `FK(front-right, (θ0, θ1, θ2))` with
`y` negated and `x`, `z` unchanged. -/
theorem c4_mirror_amended (θ0 θ1 θ2 : ℝ) :
    (forward_kinematics Leg.fl (-θ0) θ1 θ2).1 = (forward_kinematics Leg.fr θ0 θ1 θ2).1 ∧
      (forward_kinematics Leg.fl (-θ0) θ1 θ2).2.1
        = -((forward_kinematics Leg.fr θ0 θ1 θ2).2.1) ∧
      (forward_kinematics Leg.fl (-θ0) θ1 θ2).2.2 = (forward_kinematics Leg.fr θ0 θ1 θ2).2.2 := by
  refine ⟨?_, ?_, ?_⟩ <;>
    (simp [forward_kinematics, thigh_len, shank_len, hip_offset, Real.cos_neg, Real.sin_neg]
     try ring)

/-- C5 (code bug): a rejected cycle is observable to the caller only as a
no-op.  The source logs the constant string `'Motor limit reached'` and
executes a bare `return`; the method's return value is `None` on both the
success and the rejection path, and no `JointLimitExceeded` value naming the
offending leg, motor, or magnitude exists anywhere in the code.  Evaluated
at a failing input: hip abduction candidate `1.2` rad on the front-right
leg; the cycle dispatches nothing and the actuator posture is unchanged. -/
theorem c5_rejection_silent_noop :
    postural_control 0 0 0 0
        (Posture.mk (1.2, 0, -(Real.pi / 2)) home_triple home_triple home_triple) = none ∧
      postural_control_effect 0 0 0 0
          (Posture.mk (1.2, 0, -(Real.pi / 2)) home_triple home_triple home_triple) home_posture
        = home_posture := by
  have hpi := Real.pi_gt_d2
  have hpi2 := Real.pi_lt_d2
  have hs : 0 ≤ Real.sin 1.2 := Real.sin_nonneg_of_nonneg_of_le_pi (by norm_num) (by linarith)
  have hco : 0 < Real.cos 1.2 :=
    Real.cos_pos_of_mem_Ioo (Set.mem_Ioo.mpr ⟨by linarith, by linarith⟩)
  have hcand : legCandidate 0 0 0 0 Leg.fr ((1.2 : ℝ), 0, -(Real.pi / 2))
      = some (1.2, 0, -(Real.pi / 2)) :=
    legCandidate_zero_eq Leg.fr 1.2 0 (-(Real.pi / 2)) (by norm_num) (by norm_num) (by norm_num)
      (by norm_num) (by linarith) (by linarith) reach_pos_right_angle (fk_z_neg_right 1.2 hs hco)
  have hv : ¬ limits_ok ((1.2 : ℝ), 0, -(Real.pi / 2)) := by
    intro hcon
    exact absurd hcon.2.1 (by norm_num)
  have habort := postural_control_abort_of_violation 0 0 0 0
    (Posture.mk (1.2, 0, -(Real.pi / 2)) home_triple home_triple home_triple)
    Leg.fr (1.2, 0, -(Real.pi / 2)) hcand hv
  exact ⟨habort, effect_of_none _ _ _ _ _ _ habort⟩

end A1

namespace A1

/-- The in-range triple `(0, π, -π/2)` used to refute the unconditional
round-trip and identity-transform claims: its planar reach
`h = 200·cos π + 200·cos (π/2) = -200` is negative. -/
noncomputable def overfold_triple : ℝ × ℝ × ℝ := (0, Real.pi, -(Real.pi / 2))

/-- The posture whose four columns are all `overfold_triple`. -/
noncomputable def overfold_posture : Posture :=
  ⟨overfold_triple, overfold_triple, overfold_triple, overfold_triple⟩

/-- What the pipeline actually returns at `overfold_triple`. -/
noncomputable def overfold_image : ℝ × ℝ × ℝ := (0, Real.pi / 2, -(Real.pi / 2))

/-- Every leg's zero-parameter candidate at `overfold_triple` is
`overfold_image`, whose flexion angle differs from the original by `π/2`. -/
lemma legCandidate_overfold (leg : Leg) :
    legCandidate 0 0 0 0 leg overfold_triple = some overfold_image := by
  unfold overfold_triple overfold_image
  cases leg <;>
    simp only [legCandidate, transform_toe_zero]
  · rw [fk_c2_fr]
    exact ik_c2_eval_fr
  · rw [fk_c2_fl]
    exact ik_c2_eval_fl
  · have hfk : forward_kinematics Leg.hr 0 Real.pi (-(Real.pi / 2)) = (-200, 80, 200) := fk_c2_fr
    rw [hfk]
    exact ik_c2_eval_fr
  · have hfk : forward_kinematics Leg.hl 0 Real.pi (-(Real.pi / 2)) = (-200, -80, 200) := fk_c2_fl
    rw [hfk]
    exact ik_c2_eval_fl

lemma limits_ok_overfold_image : limits_ok overfold_image := by
  have h1 := Real.pi_gt_d2
  have h2 := Real.pi_lt_d2
  unfold limits_ok overfold_image
  refine ⟨by norm_num, by norm_num, by linarith, by linarith, by linarith, by linarith⟩

/-- C2 counterexample: the triple `(0, π, -π/2)` is strictly inside all
three motor ranges, yet `IK(front-right, FK(front-right, θ))` returns
`(0, π/2, -π/2)`: the flexion angle differs from the original by `π/2`,
far beyond the claimed `1e-6` tolerance. -/
theorem c2_roundtrip_cex :
    (-0.803 < (0:ℝ) ∧ (0:ℝ) < 0.803 ∧ -1.047 < Real.pi ∧ Real.pi < 4.189 ∧
        -2.697 < -(Real.pi / 2) ∧ -(Real.pi / 2) < -0.916) ∧
      inverse_kinematics Leg.fr (forward_kinematics Leg.fr 0 Real.pi (-(Real.pi / 2))).1
          (forward_kinematics Leg.fr 0 Real.pi (-(Real.pi / 2))).2.1
          (forward_kinematics Leg.fr 0 Real.pi (-(Real.pi / 2))).2.2
        = some (0, Real.pi / 2, -(Real.pi / 2)) ∧
      |Real.pi / 2 - Real.pi| > 1e-6 := by
  have h1 := Real.pi_gt_d2
  have h2 := Real.pi_lt_d2
  refine ⟨⟨by norm_num, by norm_num, by linarith, by linarith, by linarith, by linarith⟩, ?_, ?_⟩
  · rw [fk_c2_fr]
    exact ik_c2_eval_fr
  · rw [abs_of_neg (by linarith : Real.pi / 2 - Real.pi < 0)]
    linarith

/-- C2 (corrected): the FK/IK round trip is exact (hence within `1e-6`)
for every leg and every triple strictly inside the motor ranges whose
planar reach `h = l1·cos θ1 + l2·cos (θ1 + θ2)` is positive and whose toe
sits strictly below the hip (`z < 0`).  Without these two conditions the
round trip can fail, as `c2_roundtrip_cex` shows. -/
theorem c2_roundtrip_amended (leg : Leg) (θ0 θ1 θ2 : ℝ)
    (r0l : -0.803 < θ0) (r0u : θ0 < 0.803)
    (r1l : -1.047 < θ1) (r1u : θ1 < 4.189)
    (r2l : -2.697 < θ2) (r2u : θ2 < -0.916)
    (hreach : 0 < thigh_len * Real.cos θ1 + shank_len * Real.cos (θ1 + θ2))
    (hbelow : (forward_kinematics leg θ0 θ1 θ2).2.2 < 0) :
    inverse_kinematics leg (forward_kinematics leg θ0 θ1 θ2).1
        (forward_kinematics leg θ0 θ1 θ2).2.1 (forward_kinematics leg θ0 θ1 θ2).2.2
      = some (θ0, θ1, θ2) :=
  ik_fk_exact leg θ0 θ1 θ2 (by linarith) (by linarith) (by linarith) (by linarith)
    (by linarith) (by linarith) hreach hbelow

/-- Witness for the amended C2 at the front-left leg and `θ = (0, 0, -π/2)`. -/
theorem c2_roundtrip_amended_witness :
    inverse_kinematics Leg.fl (forward_kinematics Leg.fl 0 0 (-(Real.pi / 2))).1
        (forward_kinematics Leg.fl 0 0 (-(Real.pi / 2))).2.1
        (forward_kinematics Leg.fl 0 0 (-(Real.pi / 2))).2.2
      = some (0, 0, -(Real.pi / 2)) := by
  have h1 := Real.pi_gt_d2
  have h2 := Real.pi_lt_d2
  apply c2_roundtrip_amended Leg.fl 0 0 (-(Real.pi / 2)) (by norm_num) (by norm_num)
    (by norm_num) (by norm_num) (by linarith) (by linarith) reach_pos_right_angle
  simp [forward_kinematics, thigh_len, shank_len, hip_offset, Real.cos_zero, Real.sin_zero,
    Real.cos_pi_div_two, Real.sin_pi_div_two, Real.cos_neg, Real.sin_neg]

/-- C6 counterexample: the posture with all four columns `(0, π, -π/2)` is
strictly within all motor ranges, yet the zero-parameter cycle completes
and dispatches a different posture: every flexion angle comes back as
`π/2`, a change of `π/2`, far beyond the claimed `1e-9` tolerance. -/
theorem c6_identity_cex :
    (-0.803 < (0:ℝ) ∧ (0:ℝ) < 0.803 ∧ -1.047 < Real.pi ∧ Real.pi < 4.189 ∧
        -2.697 < -(Real.pi / 2) ∧ -(Real.pi / 2) < -0.916) ∧
      postural_control 0 0 0 0 overfold_posture
        = some (Posture.mk overfold_image overfold_image overfold_image overfold_image) ∧
      |(Posture.mk overfold_image overfold_image overfold_image overfold_image).fr.2.1
          - overfold_posture.fr.2.1| > 1e-9 := by
  have h1 := Real.pi_gt_d2
  have h2 := Real.pi_lt_d2
  refine ⟨⟨by norm_num, by norm_num, by linarith, by linarith, by linarith, by linarith⟩, ?_, ?_⟩
  · exact postural_control_of_candidates 0 0 0 0 overfold_posture
      overfold_image overfold_image overfold_image overfold_image
      (legCandidate_overfold Leg.fr) limits_ok_overfold_image
      (legCandidate_overfold Leg.fl) limits_ok_overfold_image
      (legCandidate_overfold Leg.hr) limits_ok_overfold_image
      (legCandidate_overfold Leg.hl) limits_ok_overfold_image
  · show |Real.pi / 2 - Real.pi| > 1e-9
    rw [abs_of_neg (by linarith : Real.pi / 2 - Real.pi < 0)]
    linarith

/-- C6 (corrected): the zero-parameter cycle returns the starting posture
exactly (hence within `1e-9`) whenever every column is strictly within the
motor ranges, has positive planar reach, and places its toe strictly below
the hip.  Without the two extra conditions the identity fails, as
`c6_identity_cex` shows. -/
theorem c6_identity_amended (p0 : Posture)
    (hvalid : ∀ leg : Leg, limits_ok (p0.get leg) ∧
      0 < thigh_len * Real.cos (p0.get leg).2.1
          + shank_len * Real.cos ((p0.get leg).2.1 + (p0.get leg).2.2) ∧
      (forward_kinematics leg (p0.get leg).1 (p0.get leg).2.1 (p0.get leg).2.2).2.2 < 0) :
    postural_control 0 0 0 0 p0 = some p0 := by
  have key : ∀ leg : Leg, legCandidate 0 0 0 0 leg (p0.get leg) = some (p0.get leg) := by
    intro leg
    obtain ⟨hlim, hre, hbe⟩ := hvalid leg
    obtain ⟨l1, l2, l3, l4, l5, l6⟩ := hlim
    have := legCandidate_zero_eq leg (p0.get leg).1 (p0.get leg).2.1 (p0.get leg).2.2
      (by linarith) (by linarith) (by linarith) (by linarith) (by linarith) (by linarith)
      hre hbe
    simpa using this
  have hres := postural_control_of_candidates 0 0 0 0 p0 p0.fr p0.fl p0.hr p0.hl
    (key Leg.fr) (hvalid Leg.fr).1 (key Leg.fl) (hvalid Leg.fl).1
    (key Leg.hr) (hvalid Leg.hr).1 (key Leg.hl) (hvalid Leg.hl).1
  exact hres

/-- Witness for the amended C6 at the standing posture. -/
theorem c6_identity_amended_witness :
    postural_control 0 0 0 0 home_posture = some home_posture := by
  apply c6_identity_amended
  intro leg
  refine ⟨?_, ?_, ?_⟩
  · cases leg <;> exact limits_ok_home
  · cases leg <;>
      · show 0 < thigh_len * Real.cos 0 + shank_len * Real.cos (0 + -(Real.pi / 2))
        exact reach_pos_right_angle
  · have hz : ∀ l : Leg, (forward_kinematics l 0 0 (-(Real.pi / 2))).2.2 < 0 := by
      intro l
      cases l <;>
        simp [forward_kinematics, thigh_len, shank_len, hip_offset, Real.cos_zero, Real.sin_zero,
          Real.cos_pi_div_two, Real.sin_pi_div_two, Real.cos_neg, Real.sin_neg]
    cases leg <;> exact hz _

end A1

namespace A1

/-- C7 (confirmed): a NaN-bearing inverse-kinematics result for any leg
(`none` in this model, e.g. from an unreachable transformed toe point)
aborts the cycle before the dispatch step, because every float comparison
of the limit check is false on NaN.  Dispatch (`some q`) therefore happens
only when all four legs' inverse-kinematics results are real triples, so a
dispatched motor command never carries a NaN angle. -/
theorem c7_nan_aborts_before_dispatch (α β γ Δz : ℝ) (p0 : Posture) (leg : Leg)
    (hnan : legCandidate α β γ Δz leg (p0.get leg) = none) :
    postural_control α β γ Δz p0 = none := by
  apply postural_control_abort α β γ Δz p0 leg
  intro t ht
  rw [hnan] at ht
  exact Option.noConfusion ht

/-- Witness for C7: at the standing posture a height command `Δz = 1000`
makes the front-right candidate NaN-bearing, and the cycle dispatches
nothing. -/
theorem c7_nan_aborts_before_dispatch_witness :
    legCandidate 0 0 0 1000 Leg.fr (home_posture.get Leg.fr) = none ∧
      postural_control 0 0 0 1000 home_posture = none := by
  have hnan : legCandidate 0 0 0 1000 Leg.fr (home_posture.get Leg.fr) = none :=
    legCandidate_far_none
  exact ⟨hnan, c7_nan_aborts_before_dispatch 0 0 0 1000 home_posture Leg.fr hnan⟩

/-- C8 (confirmed): the per-leg loop does not leak partial updates.  The
caller's `reference_posture` is copied at line 113, so the embedding takes
the starting posture by value and cannot mutate it; and whenever a cycle
commits (`some q`), each committed column is exactly the candidate computed
from the starting posture's own original column — the in-place writes into
the working copy never feed one leg's output into another leg's input, and
nothing reaches the actuator unless all four candidates pass validation. -/
theorem c8_candidates_from_original_columns (α β γ Δz : ℝ) (p0 q : Posture)
    (h : postural_control α β γ Δz p0 = some q) :
    ∀ leg : Leg, legCandidate α β γ Δz leg (p0.get leg) = some (q.get leg) ∧
      limits_ok (q.get leg) :=
  postural_control_some_inv α β γ Δz p0 q h

/-- Witness for C8 at the standing posture's successful zero-parameter
cycle. -/
theorem c8_candidates_from_original_columns_witness :
    legCandidate 0 0 0 0 Leg.fr (home_posture.get Leg.fr)
        = some (home_posture.get Leg.fr) ∧
      limits_ok (home_posture.get Leg.fr) :=
  c8_candidates_from_original_columns 0 0 0 0 home_posture home_posture
    postural_control_home Leg.fr

/-- C9 (confirmed): with `thigh_len = 200`, `shank_len = 200`,
`hip_offset = 80`, feeding the front-right toe point of `θ = (0, 0.7, -1.4)`
back into the inverse kinematics returns `(0, 0.7, -1.4)` exactly — in
exact real arithmetic the round trip has error `0`, well within the claimed
`1e-6`. -/
theorem c9_concrete_roundtrip :
    inverse_kinematics Leg.fr (forward_kinematics Leg.fr 0 0.7 (-1.4)).1
        (forward_kinematics Leg.fr 0 0.7 (-1.4)).2.1
        (forward_kinematics Leg.fr 0 0.7 (-1.4)).2.2
      = some (0, 0.7, -1.4) := by
  have hpi := Real.pi_gt_d2
  have hco : 0 < Real.cos 0.7 :=
    Real.cos_pos_of_mem_Ioo (Set.mem_Ioo.mpr ⟨by linarith, by linarith⟩)
  have hreach : 0 < thigh_len * Real.cos 0.7 + shank_len * Real.cos (0.7 + -1.4) := by
    simp only [thigh_len, shank_len]
    rw [show (0.7 : ℝ) + -1.4 = -(0.7) by norm_num, Real.cos_neg]
    linarith
  apply ik_fk_exact Leg.fr 0 0.7 (-1.4) (by norm_num) (by norm_num) (by norm_num)
    (by norm_num) (by norm_num) (by norm_num) hreach
  simp only [forward_kinematics, thigh_len, shank_len, hip_offset]
  rw [show (0.7 : ℝ) + -1.4 = -(0.7) by norm_num, Real.cos_neg, Real.sin_zero, Real.cos_zero]
  nlinarith

/-- C10 (confirmed): the limit check uses strict inequalities.  The
candidate `(0.803, 0, -π/2)` has every angle inside its closed motor range,
with the abduction angle exactly at the documented `0.803` endpoint, yet
the cycle aborts and dispatches nothing. -/
theorem c10_boundary_angle_rejected :
    ((-0.803 : ℝ) ≤ 0.803 ∧ (0.803 : ℝ) ≤ 0.803 ∧ (-1.047 : ℝ) ≤ 0 ∧ (0 : ℝ) ≤ 4.189 ∧
        -2.697 ≤ -(Real.pi / 2) ∧ -(Real.pi / 2) ≤ -0.916) ∧
      legCandidate 0 0 0 0 Leg.fr ((0.803 : ℝ), 0, -(Real.pi / 2))
        = some (0.803, 0, -(Real.pi / 2)) ∧
      ¬ limits_ok ((0.803 : ℝ), 0, -(Real.pi / 2)) ∧
      postural_control 0 0 0 0
        (Posture.mk (0.803, 0, -(Real.pi / 2)) home_triple home_triple home_triple) = none := by
  have hpi := Real.pi_gt_d2
  have hpi2 := Real.pi_lt_d2
  have hs : 0 ≤ Real.sin 0.803 :=
    Real.sin_nonneg_of_nonneg_of_le_pi (by norm_num) (by linarith)
  have hco : 0 < Real.cos 0.803 :=
    Real.cos_pos_of_mem_Ioo (Set.mem_Ioo.mpr ⟨by linarith, by linarith⟩)
  have hcand : legCandidate 0 0 0 0 Leg.fr ((0.803 : ℝ), 0, -(Real.pi / 2))
      = some (0.803, 0, -(Real.pi / 2)) :=
    legCandidate_zero_eq Leg.fr 0.803 0 (-(Real.pi / 2)) (by norm_num) (by norm_num)
      (by norm_num) (by norm_num) (by linarith) (by linarith) reach_pos_right_angle
      (fk_z_neg_right 0.803 hs hco)
  have hv : ¬ limits_ok ((0.803 : ℝ), 0, -(Real.pi / 2)) := by
    intro hcon
    exact absurd hcon.2.1 (by norm_num)
  refine ⟨⟨by norm_num, by norm_num, by norm_num, by norm_num, by linarith, by linarith⟩,
    hcand, hv, ?_⟩
  exact postural_control_abort_of_violation 0 0 0 0
    (Posture.mk (0.803, 0, -(Real.pi / 2)) home_triple home_triple home_triple)
    Leg.fr (0.803, 0, -(Real.pi / 2)) hcand hv

end A1
